import Mathlib

/-!
Verification of the training/evaluation loop and model glue of the
transfer-learning notebook (`PyTorch_Transfer_Learning_Basics_Final.ipynb`).

The notebook's `train` function runs, per epoch, a training pass over
`trainloader` and an evaluation pass over `testloader`, then reports an
average validation loss and an accuracy.  The definitions below are shallow
embeddings of the relevant pieces of that function and of the two model
classes (`Net_Seq` and `TransferNet`), with floating-point numbers modelled
as rationals and PyTorch library behaviour (autograd, `Adam`, `Dropout`,
layer shape rules) modelled explicitly where the notebook relies on it.
-/

/-- Errors the Python interpreter can raise during the epoch-end reporting of
the notebook's `train` function (the division `val_loss /= i` and the
divisions inside the subsequent `print` arguments). -/
inductive PyRunError
  | zeroDivision
  | nameError
deriving DecidableEq

/-- Result of a fallible piece of Python code: a value, or a raised error. -/
inductive PyResult
  | ok (q : ℚ)
  | raise (e : PyRunError)
deriving DecidableEq

/-- Embeds the statement `val_loss /= i` with which the epoch-end reporting
of `train` begins (the subsequent `print`, whose accuracy argument performs a
further division, is `epochEndReport` below):

```
for i, data in enumerate(trainloader, 0): ...   # training pass
for i, data in enumerate(testloader, 0):  ...   # val_loss += temp_loss.item()
val_loss /= i
```

`valLosses` is the list of per-batch validation losses (so its length is the
number of validation batches) and `trainBatchCount` the number of training
batches of the epoch.  In Python, `i` after the loops is the last value bound
by `enumerate`: the last validation batch index when the validation loop ran,
otherwise the last training batch index, and unbound (a `NameError` at use)
when both loops ran zero iterations.  Dividing the float `val_loss` by the
integer `0` raises `ZeroDivisionError`. -/
def valLossReport (trainBatchCount : Nat) (valLosses : List ℚ) : PyResult :=
  let lastI : Option Nat :=
    if 0 < valLosses.length then some (valLosses.length - 1)
    else if 0 < trainBatchCount then some (trainBatchCount - 1)
    else none
  match lastI with
  | none => PyResult.raise PyRunError.nameError
  | some 0 => PyResult.raise PyRunError.zeroDivision
  | some (k + 1) => PyResult.ok (valLosses.sum / ((k : ℚ) + 1))

/-- Outcome of the epoch-end `print` of `train`: the pair of values handed to
the format string (reported validation loss and accuracy percent), or a
raised error. -/
inductive PyReportResult
  | printed (valLoss accPct : ℚ)
  | raise (e : PyRunError)
deriving DecidableEq

/-- Embeds the whole epoch-end reporting of `train`:

```
val_loss /= i
print('...Test loss...Test accuracy...'.format(
    val_loss, 100. * correct / len(testloader.dataset)))
```

First `val_loss /= i` runs (`valLossReport`; a raise there propagates), then
the print's arguments are evaluated: the accuracy term divides by
`len(testloader.dataset)`, the number of validation examples
(`valDatasetSize`, which is `0` exactly when the loader yields zero batches,
since the default loader keeps partial batches).  When the validation loop
ran zero iterations, `correct` is still the plain Python integer `0` — never
rebound to a tensor — so `100. * correct / 0` is a float division by the
integer zero and raises `ZeroDivisionError`; otherwise the reported accuracy
is `100 * correct / size`. -/
def epochEndReport (trainBatchCount : Nat) (valLosses : List ℚ) (correct : Nat)
    (valDatasetSize : Nat) : PyReportResult :=
  match valLossReport trainBatchCount valLosses with
  | PyResult.raise e => PyReportResult.raise e
  | PyResult.ok vl =>
    if valDatasetSize = 0 then PyReportResult.raise PyRunError.zeroDivision
    else PyReportResult.printed vl (100 * (correct : ℚ) / (valDatasetSize : ℚ))

/-- Embeds the running-loss bookkeeping of the training pass of `train`:

```
loss_sum += temp_loss.item()
if i % 200 == 199:
    print(... loss_sum / 200)
    loss_sum = 0.0
```

Arguments are the current batch index `i`, the current `loss_sum`, and the
remaining per-batch training losses; the result is the final `loss_sum`
together with the list of values printed (in order). -/
def lossWindowLoop : Nat → ℚ → List ℚ → ℚ × List ℚ
  | _, lossSum, [] => (lossSum, [])
  | i, lossSum, l :: ls =>
    if i % 200 = 199 then
      ((lossWindowLoop (i + 1) 0 ls).1, (lossSum + l) / 200 :: (lossWindowLoop (i + 1) 0 ls).2)
    else lossWindowLoop (i + 1) (lossSum + l) ls

/-- Means of the successive disjoint 200-batch windows of a loss list
(partial trailing windows yield no report), written independently of the
loop above. -/
def windowMeans (ls : List ℚ) : List ℚ :=
  if h : 200 ≤ ls.length then
    (ls.take 200).sum / 200 :: windowMeans (ls.drop 200)
  else []
termination_by ls.length
decreasing_by simp; omega

/-- C1 (counterexample): with two validation batches of loss 1 each, the code
reports `2` (it divides by the last enumerate index `1`), while the claimed
average over the number of batches is `(1+1)/2 = 1`. -/
theorem c1_avg_divisor_counterexample :
    valLossReport 300 [(1 : ℚ), 1] = PyResult.ok 2 ∧ ((1 : ℚ) + 1) / 2 ≠ 2 := by
  constructor
  · simp only [valLossReport]
    norm_num
  · norm_num

/-- C1 (amended): for a validation partition of at least two batches, the
reported per-epoch validation loss equals the sum of the per-batch losses
divided by the number of validation batches minus one (the last enumerate
index), not by the batch count. -/
theorem c1_avg_divisor_amended (tc : Nat) (ls : List ℚ) (h : 2 ≤ ls.length) :
    valLossReport tc ls = PyResult.ok (ls.sum / ((ls.length : ℚ) - 1)) := by
  match ls, h with
  | a :: b :: r, _ =>
    simp only [valLossReport, List.length_cons]
    norm_num

/-- C1 (witness): the amended statement evaluated on the two-batch example. -/
theorem c1_avg_divisor_amended_witness :
    2 ≤ ([(1 : ℚ), 1] : List ℚ).length ∧
      valLossReport 300 [(1 : ℚ), 1] =
        PyResult.ok (([(1 : ℚ), 1] : List ℚ).sum / ((([(1 : ℚ), 1] : List ℚ).length : ℚ) - 1)) :=
  ⟨by decide, c1_avg_divisor_amended 300 [(1 : ℚ), 1] (by decide)⟩

/-- C6 (counterexample): the claim's mechanism and error are both wrong at
concrete inputs.  With an empty validation partition and 3 training batches,
the per-epoch averaging division `val_loss /= i` does not fail and does not
divide by the batch count: it divides by the stale training index `2` and
yields `0` (the run's actual crash comes later, from the print's accuracy
term).  And with an empty training partition as well, the run fails with a
`NameError` (`i` unbound), not a division by zero. -/
theorem c6_empty_validation_counterexample :
    valLossReport 3 ([] : List ℚ) = PyResult.ok 0
    ∧ PyResult.ok 0 ≠ PyResult.raise PyRunError.zeroDivision
    ∧ epochEndReport 0 ([] : List ℚ) 0 0 = PyReportResult.raise PyRunError.nameError
    ∧ PyReportResult.raise PyRunError.nameError ≠ PyReportResult.raise PyRunError.zeroDivision := by
  refine ⟨?_, by decide, rfl, by decide⟩
  simp only [valLossReport]
  norm_num

/-- C6 (amended): with an empty validation partition the run does fail, but
not as the claim describes.  When the training partition is non-empty the
epoch-end reporting raises `ZeroDivisionError`: at the averaging division
itself (stale training index `0`) when the training partition has exactly one
batch, and otherwise at the same print's accuracy term
`100. * correct / len(testloader.dataset)`, which divides by the empty
dataset's size `0` while the averaging division by the stale index succeeds
with `0`.  When the training partition is also empty the failure is a
`NameError` instead.  (An empty validation loader means an empty validation
dataset, so `valDatasetSize = 0` here.) -/
theorem c6_empty_validation_amended (tc correct : Nat) :
    (epochEndReport tc ([] : List ℚ) correct 0 =
      if tc = 0 then PyReportResult.raise PyRunError.nameError
      else PyReportResult.raise PyRunError.zeroDivision)
    ∧ (valLossReport tc ([] : List ℚ) =
      if tc = 0 then PyResult.raise PyRunError.nameError
      else if tc = 1 then PyResult.raise PyRunError.zeroDivision
      else PyResult.ok 0) := by
  have hv : valLossReport tc ([] : List ℚ) =
      if tc = 0 then PyResult.raise PyRunError.nameError
      else if tc = 1 then PyResult.raise PyRunError.zeroDivision
      else PyResult.ok 0 := by
    match tc with
    | 0 => rfl
    | 1 => rfl
    | n + 2 =>
      show PyResult.ok ((0 : ℚ) / ((n : ℚ) + 1)) = _
      rw [if_neg (by omega), if_neg (by omega)]
      norm_num
  refine ⟨?_, hv⟩
  simp only [epochEndReport, hv]
  match tc with
  | 0 => rfl
  | 1 => rfl
  | n + 2 => rfl

/-- C10: if the validation partition yields exactly one batch, the last
enumerate index is `0`, so the epoch-end averaging raises `ZeroDivisionError`
regardless of the training partition and of the batch's loss value. -/
theorem c10_single_batch_zero_division (tc : Nat) (l : ℚ) :
    valLossReport tc [l] = PyResult.raise PyRunError.zeroDivision := rfl

/-- The window loop only depends on the batch index modulo 200. -/
theorem lossWindowLoop_mod (ls : List ℚ) : ∀ i s,
    lossWindowLoop i s ls = lossWindowLoop (i % 200) s ls := by
  induction ls with
  | nil => intro i s; rfl
  | cons l ls ih =>
    intro i s
    have h200 : i % 200 % 200 = i % 200 := Nat.mod_eq_of_lt (Nat.mod_lt _ (by norm_num))
    have hstep : (i + 1) % 200 = (i % 200 + 1) % 200 := by
      conv_lhs => rw [Nat.add_mod]
    simp only [lossWindowLoop, h200]
    by_cases hc : i % 200 = 199
    · rw [if_pos hc, if_pos hc, ih (i + 1), ih (i % 200 + 1), hstep]
    · rw [if_neg hc, if_neg hc, ih (i + 1), ih (i % 200 + 1), hstep]

/-- A run of the window loop that cannot reach index 199 prints nothing and
accumulates the whole sum. -/
theorem lossWindowLoop_small : ∀ (ls : List ℚ) i s, i + ls.length < 200 →
    lossWindowLoop i s ls = (s + ls.sum, []) := by
  intro ls
  induction ls with
  | nil => intro i s _; simp [lossWindowLoop]
  | cons l ls ih =>
    intro i s h
    simp only [List.length_cons] at h
    have him : i % 200 = i := Nat.mod_eq_of_lt (by omega)
    simp only [lossWindowLoop, him]
    rw [if_neg (by omega), ih (i + 1) (s + l) (by omega)]
    simp [add_assoc]

/-- Processing a window that completes at index 199 prints the window mean
once and restarts the loop with a zero running sum. -/
theorem lossWindowLoop_window : ∀ (c : List ℚ), c ≠ [] → ∀ i s (rest : List ℚ),
    i + c.length = 200 →
    lossWindowLoop i s (c ++ rest) =
      ((lossWindowLoop 0 0 rest).1, (s + c.sum) / 200 :: (lossWindowLoop 0 0 rest).2) := by
  intro c
  induction c with
  | nil => intro h; exact absurd rfl h
  | cons l c ih =>
    intro _ i s rest hlen
    simp only [List.length_cons] at hlen
    by_cases hc : c = []
    · subst hc
      have hi : i = 199 := by simpa using hlen
      subst hi
      simp only [List.cons_append, List.nil_append, lossWindowLoop, List.append_eq]
      rw [if_pos (by norm_num)]
      rw [lossWindowLoop_mod rest (199 + 1) 0]
      norm_num
    · have hcl : 1 ≤ c.length := List.length_pos.mpr hc
      have him : i % 200 = i := Nat.mod_eq_of_lt (by omega)
      simp only [List.cons_append, lossWindowLoop, him, List.append_eq]
      rw [if_neg (by omega), ih hc (i + 1) (s + l) rest (by omega)]
      simp [add_assoc]

theorem c7_window_mean_report_aux : ∀ (n : Nat) (ls : List ℚ), ls.length ≤ n →
    (lossWindowLoop 0 0 ls).2 = windowMeans ls := by
  intro n
  induction n with
  | zero =>
    intro ls h
    have : ls = [] := List.length_eq_zero.mp (Nat.le_zero.mp h)
    subst this
    rw [windowMeans]
    simp [lossWindowLoop]
  | succ n ih =>
    intro ls h
    by_cases h200 : 200 ≤ ls.length
    · have htl : (ls.take 200).length = 200 := by rw [List.length_take]; omega
      have hne : ls.take 200 ≠ [] := by
        intro hh
        rw [hh] at htl
        simp at htl
      conv_lhs => rw [← List.take_append_drop 200 ls]
      rw [lossWindowLoop_window _ hne 0 0 _ (by rw [htl])]
      rw [windowMeans, dif_pos h200]
      simp only [zero_add]
      rw [ih (ls.drop 200) (by rw [List.length_drop]; omega)]
    · rw [lossWindowLoop_small ls 0 0 (by omega), windowMeans, dif_neg h200]

/-- C7: over a whole training pass, the values printed by the periodic
reporting are exactly the means (window sum over 200) of the successive
disjoint 200-batch windows of per-batch losses, each print resetting the
running sum; partial trailing windows print nothing. -/
theorem c7_window_mean_report (losses : List ℚ) :
    (lossWindowLoop 0 0 losses).2 = windowMeans losses :=
  c7_window_mean_report_aux losses.length losses le_rfl

/-- A model parameter tensor, collapsed to a single rational: its value, its
gradient accumulator (`None` until first populated, as in PyTorch), and its
`requires_grad` flag. -/
structure TParam where
  value : ℚ
  grad : Option ℚ
  requiresGrad : Bool
deriving DecidableEq

/-- The parameters of `TransferNet`: the pretrained VGG16 convolutional
parameters stored in `self.pretrained_layers` (torchvision loads them with
`requires_grad=True`, and the notebook never sets it to `False`), and the
newly added `self.dense` parameters. -/
structure TransferParams where
  pretrained : List TParam
  dense : List TParam
deriving DecidableEq

/-- Per-parameter `Adam` state: exponential moving averages of the gradient
and of its square. -/
structure AdamPState where
  m : ℚ
  v : ℚ
deriving DecidableEq

/-- The optimizer of the fine-tuned variant, built by
`optim.Adam(chain(fineTune.dense.parameters()), lr=0.001)`: it holds only the
dense parameters, so `states` is aligned with `TransferParams.dense`. -/
structure AdamOpt where
  lr : ℚ
  beta1 : ℚ
  beta2 : ℚ
  eps : ℚ
  stepCount : Nat
  states : List AdamPState
deriving DecidableEq

/-- An `Adam` optimizer with the notebook's call-site arguments: `lr=0.001`
and the PyTorch defaults `betas=(0.9, 0.999)`, `eps=1e-8`, before any step. -/
def adamDefaults (states : List AdamPState) : AdamOpt :=
  ⟨1/1000, 9/10, 999/1000, 1/100000000, 0, states⟩

/-- Models `p.grad` clearing for one parameter: PyTorch's `zero_grad` zeroes
an existing gradient tensor and leaves an unpopulated gradient as `None`. -/
def zeroGradParam (p : TParam) : TParam :=
  { p with grad := p.grad.map (fun _ => 0) }

/-- Models `optimizer.zero_grad()` for the fine-tuned setup: only the
parameters handed to the optimizer — the dense ones — are cleared. -/
def zero_grad (mp : TransferParams) : TransferParams :=
  { mp with dense := mp.dense.map zeroGradParam }

/-- Models the gradient accumulation performed by `temp_loss.backward()` on a
list of parameters: every parameter with `requires_grad` gets the batch
gradient `g i` added to its (defaulted-to-zero) accumulator; parameters with
`requires_grad=False` are untouched.  `i` is the position of the parameter in
the list. -/
def gradAccumFrom (g : Nat → ℚ) : Nat → List TParam → List TParam
  | _, [] => []
  | i, p :: ps =>
    (if p.requiresGrad then { p with grad := some (p.grad.getD 0 + g i) } else p) ::
      gradAccumFrom g (i + 1) ps

/-- Models `temp_loss.backward()` for `TransferNet`: autograd reaches every
`requires_grad` parameter used in the forward computation, pretrained and
dense alike; `gPre i` and `gDen i` are the batch gradients autograd computes
for the `i`-th pretrained and dense parameter. -/
def backward (gPre gDen : Nat → ℚ) (mp : TransferParams) : TransferParams :=
  { pretrained := gradAccumFrom gPre 0 mp.pretrained,
    dense := gradAccumFrom gDen 0 mp.dense }

/-- A stand-in for the real square root on rationals (floor square root of
the numerator-times-denominator over the denominator).  The theorems below do
not depend on its value. -/
def qSqrt (q : ℚ) : ℚ := (Nat.sqrt (q.num.toNat * q.den) : ℚ) / (q.den : ℚ)

/-- One `Adam` update for a single parameter at step `t`: returns the value
decrement and the new moment state (bias-corrected adaptive moment
estimation, as in `torch.optim.Adam`). -/
def adamDelta (o : AdamOpt) (t : Nat) (st : AdamPState) (g : ℚ) : ℚ × AdamPState :=
  let m := o.beta1 * st.m + (1 - o.beta1) * g
  let v := o.beta2 * st.v + (1 - o.beta2) * g ^ 2
  let mhat := m / (1 - o.beta1 ^ t)
  let vhat := v / (1 - o.beta2 ^ t)
  (o.lr * mhat / (qSqrt vhat + o.eps), ⟨m, v⟩)

/-- Applies one `Adam` step to the optimizer's parameter list (paired with its
per-parameter states): parameters whose gradient is `None` are skipped, the
others move by the `Adam` decrement. -/
def adamStepPair (o : AdamOpt) (t : Nat) : List TParam → List AdamPState → List TParam × List AdamPState
  | [], _ => ([], [])
  | p :: ps, [] => (p :: ps, [])
  | p :: ps, st :: sts =>
    match p.grad with
    | none => (p :: (adamStepPair o t ps sts).1, st :: (adamStepPair o t ps sts).2)
    | some g =>
      ({ p with value := p.value - (adamDelta o t st g).1 } :: (adamStepPair o t ps sts).1,
        (adamDelta o t st g).2 :: (adamStepPair o t ps sts).2)

/-- Models `optimizer.step()` for the fine-tuned setup: only the dense
parameters were handed to the optimizer, so only they are written; the
pretrained field passes through untouched. -/
def adamStep (o : AdamOpt) (mp : TransferParams) : AdamOpt × TransferParams :=
  ({ o with stepCount := o.stepCount + 1,
            states := (adamStepPair o (o.stepCount + 1) mp.dense o.states).2 },
    { mp with dense := (adamStepPair o (o.stepCount + 1) mp.dense o.states).1 })

/-- One iteration of the training loop body of `train` on the fine-tuned
variant: `optimizer.zero_grad()`, forward and loss (which touch no
parameter), `temp_loss.backward()`, `optimizer.step()`. -/
def trainBatchStep (gPre gDen : Nat → ℚ) (s : AdamOpt × TransferParams) : AdamOpt × TransferParams :=
  adamStep s.1 (backward gPre gDen (zero_grad s.2))

/-- A whole training pass: one `trainBatchStep` per batch, each batch
supplying the gradients autograd computes for it. -/
def trainPhase : List ((Nat → ℚ) × (Nat → ℚ)) → AdamOpt × TransferParams → AdamOpt × TransferParams
  | [], s => s
  | g :: gs, s => trainPhase gs (trainBatchStep g.1 g.2 s)

/-- Gradient accumulation never changes parameter values. -/
theorem gradAccumFrom_map_value (g : Nat → ℚ) : ∀ (ps : List TParam) (i : Nat),
    (gradAccumFrom g i ps).map TParam.value = ps.map TParam.value := by
  intro ps
  induction ps with
  | nil => intro i; rfl
  | cons p ps ih =>
    intro i
    cases hp : p.requiresGrad <;> simp [gradAccumFrom, hp, ih]

/-- Pointwise description of the gradients after one `backward`: each
`requires_grad` parameter accumulates its batch gradient onto its previous
accumulator; the others keep their gradient. -/
theorem gradAccumFrom_map_grad (g : Nat → ℚ) : ∀ (ps : List TParam) (i : Nat),
    (gradAccumFrom g i ps).map TParam.grad =
      (List.enumFrom i ps).map
        (fun x => if x.2.requiresGrad then some (x.2.grad.getD 0 + g x.1) else x.2.grad) := by
  intro ps
  induction ps with
  | nil => intro i; rfl
  | cons p ps ih =>
    intro i
    cases hp : p.requiresGrad <;> simp [gradAccumFrom, hp, ih, List.enumFrom_cons]

/-- After clearing and one `backward`, a list of `requires_grad` parameters
carries exactly the fresh batch gradients. -/
theorem denseGradsAfter (g : Nat → ℚ) : ∀ (ps : List TParam) (i : Nat),
    (∀ p ∈ ps, p.requiresGrad = true) →
    (gradAccumFrom g i (ps.map zeroGradParam)).map TParam.grad =
      (List.range' i ps.length).map (fun j => some (g j)) := by
  intro ps
  induction ps with
  | nil => intro i _; rfl
  | cons p ps ih =>
    intro i h
    have hp : p.requiresGrad = true := h p (by simp)
    have hps : ∀ q ∈ ps, q.requiresGrad = true := fun q hq => h q (by simp [hq])
    have hz : (zeroGradParam p).grad.getD 0 = 0 := by
      cases hg : p.grad <;> simp [zeroGradParam, hg]
    have hrq : (zeroGradParam p).requiresGrad = true := by simp [zeroGradParam, hp]
    simp [gradAccumFrom, hrq, hz, ih _ hps, List.range'_succ]

/-- C2 (counterexample): a fine-tuned model with one pretrained parameter
(requires_grad left at its default `True`) and one dense parameter.  Before
the step the pretrained gradient is unset (`None`); after
`optimizer.zero_grad()` followed by one forward+backward it has received the
batch gradient — the frozen parameter's gradient is neither unset nor
unchanged, so gradients are not computed w.r.t. trainable parameters only. -/
theorem c2_frozen_grads_counterexample :
    ((backward (fun _ => 1) (fun _ => 1)
        (zero_grad ⟨[⟨5, none, true⟩], [⟨7, none, true⟩]⟩)).pretrained.map TParam.grad = [some 1])
    ∧ (TransferParams.mk [⟨5, none, true⟩] [⟨7, none, true⟩]).pretrained.map TParam.grad = [none]
    ∧ some (1 : ℚ) ≠ none := by
  refine ⟨?_, rfl, by simp⟩
  simp [backward, zero_grad, gradAccumFrom, zeroGradParam]

/-- C2 (amended): after `optimizer.zero_grad()` and one forward+backward on a
batch, every trainable dense parameter carries exactly its fresh batch
gradient; but the frozen pretrained parameters are not left unset/unchanged:
each pretrained parameter with `requires_grad` (the notebook's default)
accumulates its batch gradient onto whatever accumulator it already had,
since `zero_grad` clears only the parameters handed to the optimizer.  No
parameter value changes during this gradient phase. -/
theorem c2_grad_effects_amended (gPre gDen : Nat → ℚ) (mp : TransferParams)
    (hd : ∀ p ∈ mp.dense, p.requiresGrad = true) :
    ((backward gPre gDen (zero_grad mp)).dense.map TParam.grad
        = (List.range' 0 mp.dense.length).map (fun j => some (gDen j)))
    ∧ ((backward gPre gDen (zero_grad mp)).pretrained.map TParam.grad
        = (List.enumFrom 0 mp.pretrained).map
            (fun x => if x.2.requiresGrad then some (x.2.grad.getD 0 + gPre x.1) else x.2.grad))
    ∧ ((backward gPre gDen (zero_grad mp)).pretrained.map TParam.value
        = mp.pretrained.map TParam.value)
    ∧ ((backward gPre gDen (zero_grad mp)).dense.map TParam.value
        = mp.dense.map TParam.value) := by
  refine ⟨denseGradsAfter gDen mp.dense 0 hd, gradAccumFrom_map_grad gPre mp.pretrained 0,
    gradAccumFrom_map_value gPre mp.pretrained 0, ?_⟩
  have h1 := gradAccumFrom_map_value gDen (mp.dense.map zeroGradParam) 0
  have h2 : (mp.dense.map zeroGradParam).map TParam.value = mp.dense.map TParam.value := by
    simp [List.map_map, Function.comp_def, zeroGradParam]
  exact h1.trans h2

/-- C2 (witness): the amended statement on a one-parameter-per-block model
with batch gradients 1 (pretrained) and 2 (dense). -/
theorem c2_grad_effects_amended_witness :
    (∀ p ∈ (TransferParams.mk [⟨5, none, true⟩] [⟨7, none, true⟩]).dense, p.requiresGrad = true)
    ∧ (((backward (fun _ => 1) (fun _ => 2)
          (zero_grad (TransferParams.mk [⟨5, none, true⟩] [⟨7, none, true⟩]))).dense.map TParam.grad
        = (List.range' 0 (TransferParams.mk [⟨5, none, true⟩] [⟨7, none, true⟩]).dense.length).map
            (fun j => some ((fun _ => (2 : ℚ)) j)))
      ∧ (((backward (fun _ => 1) (fun _ => 2)
            (zero_grad (TransferParams.mk [⟨5, none, true⟩] [⟨7, none, true⟩]))).pretrained.map TParam.grad
          = (List.enumFrom 0 (TransferParams.mk [⟨5, none, true⟩] [⟨7, none, true⟩]).pretrained).map
              (fun x => if x.2.requiresGrad then some (x.2.grad.getD 0 + (fun _ => (1 : ℚ)) x.1)
                        else x.2.grad))
        ∧ (((backward (fun _ => 1) (fun _ => 2)
              (zero_grad (TransferParams.mk [⟨5, none, true⟩] [⟨7, none, true⟩]))).pretrained.map TParam.value
            = (TransferParams.mk [⟨5, none, true⟩] [⟨7, none, true⟩]).pretrained.map TParam.value)
          ∧ ((backward (fun _ => 1) (fun _ => 2)
              (zero_grad (TransferParams.mk [⟨5, none, true⟩] [⟨7, none, true⟩]))).dense.map TParam.value
            = (TransferParams.mk [⟨5, none, true⟩] [⟨7, none, true⟩]).dense.map TParam.value)))) :=
  ⟨by decide, c2_grad_effects_amended (fun _ => 1) (fun _ => 2)
    (TransferParams.mk [⟨5, none, true⟩] [⟨7, none, true⟩]) (by decide)⟩

/-- Value evolution of the optimizer-held parameters through one full
`zero_grad`/`backward`/`step` cycle: every parameter (with `requires_grad`,
and a state entry) is moved by exactly the `Adam` decrement computed from its
fresh batch gradient. -/
theorem densePipelineValues (o : AdamOpt) (t : Nat) (g : Nat → ℚ) :
    ∀ (ps : List TParam) (sts : List AdamPState) (i : Nat),
      (∀ p ∈ ps, p.requiresGrad = true) → sts.length = ps.length →
      ((adamStepPair o t (gradAccumFrom g i (ps.map zeroGradParam)) sts).1).map TParam.value
        = (List.enumFrom i (ps.zip sts)).map
            (fun x => x.2.1.value - (adamDelta o t x.2.2 (g x.1)).1) := by
  intro ps
  induction ps with
  | nil =>
    intro sts i _ hlen
    have : sts = [] := List.length_eq_zero.mp hlen
    subst this
    rfl
  | cons p ps ih =>
    intro sts i h hlen
    match sts with
    | st :: sts' =>
      have hp : p.requiresGrad = true := h p (by simp)
      have hps : ∀ q ∈ ps, q.requiresGrad = true := fun q hq => h q (by simp [hq])
      have hz : (zeroGradParam p).grad.getD 0 = 0 := by
        cases hg : p.grad <;> simp [zeroGradParam, hg]
      have hrq : (zeroGradParam p).requiresGrad = true := by simp [zeroGradParam, hp]
      have hv : (zeroGradParam p).value = p.value := rfl
      have hlen' : sts'.length = ps.length := by
        simpa using hlen
      simp only [List.map_cons, gradAccumFrom, hrq, if_true, adamStepPair, hz, zero_add,
        List.zip_cons_cons, List.enumFrom_cons, hv, ih sts' (i + 1) hps hlen']

/-- One training-loop iteration never changes the values of the pretrained
(frozen) parameters: `zero_grad` and `step` do not touch them at all, and
`backward` only writes their gradient accumulators. -/
theorem trainBatchStep_pretrained_value (gP gD : Nat → ℚ) (s : AdamOpt × TransferParams) :
    ((trainBatchStep gP gD s).2).pretrained.map TParam.value
      = s.2.pretrained.map TParam.value := by
  simpa [trainBatchStep, adamStep, backward, zero_grad]
    using gradAccumFrom_map_value gP s.2.pretrained 0

/-- Across any number of training-loop iterations the pretrained parameter
values are invariant. -/
theorem trainPhase_pretrained_value : ∀ (gs : List ((Nat → ℚ) × (Nat → ℚ)))
    (s : AdamOpt × TransferParams),
    ((trainPhase gs s).2).pretrained.map TParam.value = s.2.pretrained.map TParam.value := by
  intro gs
  induction gs with
  | nil => intro s; rfl
  | cons g gs ih =>
    intro s
    simp only [trainPhase]
    rw [ih, trainBatchStep_pretrained_value]

/-- C3: in the fine-tuned variant, over any sequence of training steps the
frozen pretrained parameters keep their loaded values, while on every single
step each trainable dense parameter is written with the `Adam` update
computed from its fresh batch gradient. -/
theorem c3_frozen_params_invariant (gs : List ((Nat → ℚ) × (Nat → ℚ)))
    (o : AdamOpt) (mp : TransferParams)
    (hd : ∀ p ∈ mp.dense, p.requiresGrad = true)
    (hlen : o.states.length = mp.dense.length) :
    ((trainPhase gs (o, mp)).2.pretrained.map TParam.value = mp.pretrained.map TParam.value)
    ∧ ∀ gPre gDen : Nat → ℚ,
        (trainBatchStep gPre gDen (o, mp)).2.dense.map TParam.value
          = (List.enumFrom 0 (mp.dense.zip o.states)).map
              (fun x => x.2.1.value - (adamDelta o (o.stepCount + 1) x.2.2 (gDen x.1)).1) := by
  constructor
  · exact trainPhase_pretrained_value gs (o, mp)
  · intro gPre gDen
    exact densePipelineValues o (o.stepCount + 1) gDen mp.dense o.states 0 hd hlen

/-- Fine-tuned model for the witnesses: one pretrained parameter of value 5
and one dense parameter of value 7, gradients unset. -/
def mpW : TransferParams := ⟨[⟨5, none, true⟩], [⟨7, none, true⟩]⟩

/-- Fresh notebook optimizer over the single dense parameter of `mpW`. -/
def oW : AdamOpt := adamDefaults [⟨0, 0⟩]

/-- A one-batch training pass with constant gradients. -/
def gsW : List ((Nat → ℚ) × (Nat → ℚ)) := [(fun _ => 1, fun _ => 1)]

/-- C3 (witness): the invariance and the per-step dense update evaluated on
the concrete one-parameter model. -/
theorem c3_frozen_params_invariant_witness :
    (∀ p ∈ mpW.dense, p.requiresGrad = true) ∧ oW.states.length = mpW.dense.length
    ∧ ((trainPhase gsW (oW, mpW)).2.pretrained.map TParam.value = mpW.pretrained.map TParam.value)
    ∧ ((trainBatchStep (fun _ => 3) (fun _ => 4) (oW, mpW)).2.dense.map TParam.value
        = (List.enumFrom 0 (mpW.dense.zip oW.states)).map
            (fun x => x.2.1.value - (adamDelta oW (oW.stepCount + 1) x.2.2 ((fun _ => (4 : ℚ)) x.1)).1)) :=
  ⟨by decide, by decide, (c3_frozen_params_invariant gsW oW mpW (by decide) (by decide)).1,
    (c3_frozen_params_invariant gsW oW mpW (by decide) (by decide)).2 (fun _ => 3) (fun _ => 4)⟩

/-- The index (starting at 0) of the first maximum of a score row, as
returned by `outputs.max(1, keepdim=True)[1]`; `best` and `bv` track the
current best index and value. -/
def argmaxGo : List ℚ → Nat → Nat → ℚ → Nat
  | [], _, best, _ => best
  | v :: rest, i, best, bv =>
    if bv < v then argmaxGo rest (i + 1) i v else argmaxGo rest (i + 1) best bv

/-- Predicted class of one row of logits: arg-max over the class scores. -/
def argmaxIdx : List ℚ → Nat
  | [] => 0
  | v :: rest => argmaxGo rest 1 0 v

/-- Number of rows where the prediction equals the label, as computed by
`preds.eq(class_ids.view_as(preds)).long().cpu().sum()`. -/
def countCorrect (preds labels : List Nat) : Nat :=
  ((preds.zip labels).filter (fun pl => pl.1 == pl.2)).length

/-- Embeds the evaluation pass of `train` over the validation batches:

```
for i, data in enumerate(testloader, 0):
    ...
    with torch.no_grad():
        outputs = model(inputs)
        temp_loss = loss(outputs, class_ids)
        val_loss += temp_loss.item()
        preds = outputs.max(1, keepdim=True)[1]
        correct += preds.eq(class_ids.view_as(preds)).long().cpu().sum()
```

The state carries the model parameters `p` (of arbitrary type `P`, e.g.
`TransferParams` with its gradient accumulators), the optimizer state `o`
(arbitrary type `O`), and the two metric accumulators `val_loss` and
`correct`.  `model` is the forward function (the `train` function takes the
model as a parameter), `lossFn` the loss, `labelsOf` the labels of a batch;
under `torch.no_grad()` the forward records no graph and nothing in the body
assigns to the parameters or the optimizer, so the body only rebinds the two
accumulators. -/
def evalPhase {P O B : Type} (model : P → B → List (List ℚ))
    (lossFn : List (List ℚ) → List Nat → ℚ) (labelsOf : B → List Nat) :
    List B → P × O × ℚ × Nat → P × O × ℚ × Nat
  | [], s => s
  | b :: bs, (p, o, vl, c) =>
    evalPhase model lossFn labelsOf bs
      (p, o, vl + lossFn (model p b) (labelsOf b),
        c + countCorrect ((model p b).map argmaxIdx) (labelsOf b))

/-- The evaluation pass leaves any starting accumulators intact and adds the
per-batch contributions. -/
theorem evalPhase_run {P O B : Type} (model : P → B → List (List ℚ))
    (lossFn : List (List ℚ) → List Nat → ℚ) (labelsOf : B → List Nat) :
    ∀ (batches : List B) (p : P) (o : O) (vl : ℚ) (c : Nat),
      evalPhase model lossFn labelsOf batches (p, o, vl, c)
        = (p, o, vl + (batches.map (fun b => lossFn (model p b) (labelsOf b))).sum,
            c + (batches.map (fun b => countCorrect ((model p b).map argmaxIdx) (labelsOf b))).sum) := by
  intro batches
  induction batches with
  | nil => intro p o vl c; simp [evalPhase]
  | cons b bs ih =>
    intro p o vl c
    simp [evalPhase, ih, add_assoc]

/-- C9: an epoch's evaluation pass computes no gradients and modifies neither
the model parameters nor the optimizer state: starting from the parameters
left by the training pass with zeroed metric accumulators, it returns those
parameters and that optimizer state unchanged, together with the total
validation loss and the count of batch rows whose arg-max prediction equals
the label. -/
theorem c9_eval_phase_frame {P O B : Type} (model : P → B → List (List ℚ))
    (lossFn : List (List ℚ) → List Nat → ℚ) (labelsOf : B → List Nat)
    (batches : List B) (p : P) (o : O) :
    evalPhase model lossFn labelsOf batches (p, o, 0, 0)
      = (p, o, (batches.map (fun b => lossFn (model p b) (labelsOf b))).sum,
          (batches.map (fun b => countCorrect ((model p b).map argmaxIdx) (labelsOf b))).sum) := by
  simpa using evalPhase_run model lossFn labelsOf batches p o 0 0

/-- The training/evaluation mode flag of a module, as toggled by
`model.train()` and `model.eval()` (the only state those calls change). -/
structure NetMode where
  training : Bool
deriving DecidableEq

/-- Models `model.eval()`: sets the mode flag to evaluation. -/
def setEval (m : NetMode) : NetMode := { m with training := false }

/-- Models `model.train()`: sets the mode flag to training. -/
def setTrain (m : NetMode) : NetMode := { m with training := true }

/-- Dot product of a weight row with an input vector. -/
def dot (ws xs : List ℚ) : ℚ := ((ws.zip xs).map (fun wx => wx.1 * wx.2)).sum

/-- An `nn.Linear` layer on values: one output per (row, bias) pair. -/
def linearF (w : List (List ℚ)) (b : List ℚ) (x : List ℚ) : List ℚ :=
  (w.zip b).map (fun wb => dot wb.1 x + wb.2)

/-- An `nn.ReLU` layer on values. -/
def reluF (x : List ℚ) : List ℚ := x.map (fun v => max v 0)

/-- An `nn.Dropout()` layer (p = 1/2): in training mode the random `mask`
decides which activations survive, and survivors are scaled by 1/(1-p) = 2;
in evaluation mode the layer is the identity and the mask is ignored. -/
def dropoutF (training : Bool) (mask : List Bool) (x : List ℚ) : List ℚ :=
  if training then (x.zip mask).map (fun xm => if xm.2 then 2 * xm.1 else 0) else x

/-- The weights and biases of the two linear layers of `Net_Seq.dense`
(`nn.Linear(64*26*26, 128)` and `nn.Linear(128, 10)`). -/
structure DenseParams where
  w1 : List (List ℚ)
  b1 : List ℚ
  w2 : List (List ℚ)
  b2 : List ℚ

/-- Value-level forward of `Net_Seq.dense` = `nn.Sequential(Dropout, Linear,
ReLU, Dropout, Linear)` on one flattened activation vector; `m1`, `m2` are
the random masks the two dropout layers would draw in training mode.  The
convolutional block has no randomness, so the dense block is the only part
of the model whose output can depend on anything but input and parameters. -/
def denseForward (training : Bool) (m1 m2 : List Bool) (dp : DenseParams) (x : List ℚ) : List ℚ :=
  linearF dp.w2 dp.b2 (dropoutF training m2 (reluF (linearF dp.w1 dp.b1 (dropoutF training m1 x))))

/-- C8: setting evaluation mode twice yields the same module state as setting
it once, and in evaluation mode the forward pass is deterministic: its output
does not depend on the dropout masks, so repeated calls with identical input
and parameters return equal outputs. -/
theorem c8_eval_idempotent_deterministic (m : NetMode) (dp : DenseParams) (x : List ℚ)
    (m1 m1' m2 m2' : List Bool) :
    setEval (setEval m) = setEval m
    ∧ denseForward (setEval m).training m1 m2 dp x
        = denseForward (setEval m).training m1' m2' dp x := by
  constructor
  · rfl
  · simp [denseForward, dropoutF, setEval]

/-- The layer kinds the two models are built from (defaults as used in the
notebook: convolution stride 1, pooling stride = kernel size). -/
inductive Layer
  | conv2d (inC outC k pad : Nat)
  | relu
  | maxPool2d (k : Nat)
  | dropout
  | linear (inF outF : Nat)

/-- Shape semantics of one layer on a shape (a list of dimension sizes):
`nn.Conv2d` needs a 4-d input with matching channel count and a kernel that
fits in the padded spatial extent, and produces `h + 2*pad - k + 1` (stride
1); `nn.MaxPool2d(k)` divides the spatial extent by `k` (stride = `k`);
`nn.Linear` needs a matching last dimension; `ReLU`/`Dropout` preserve the
shape.  `none` is the dimension-mismatch failure PyTorch raises. -/
def applyLayer : Layer → List Nat → Option (List Nat)
  | .conv2d ic oc k p, [n, c, h, w] =>
    if c = ic ∧ k ≤ h + 2 * p ∧ k ≤ w + 2 * p then
      some [n, oc, h + 2 * p - k + 1, w + 2 * p - k + 1]
    else none
  | .relu, s => some s
  | .dropout, s => some s
  | .maxPool2d k, [n, c, h, w] =>
    if 0 < k ∧ k ≤ h ∧ k ≤ w then some [n, c, (h - k) / k + 1, (w - k) / k + 1] else none
  | .linear i o, [n, f] => if f = i then some [n, o] else none
  | _, _ => none

/-- Shape semantics of an `nn.Sequential` block. -/
def applySeq : List Layer → List Nat → Option (List Nat)
  | [], s => some s
  | l :: ls, s =>
    match applyLayer l s with
    | none => none
    | some t => applySeq ls t

/-- `Net_Seq.convs`: three (conv → ReLU → maxpool) stages. -/
def netSeqConvs : List Layer :=
  [.conv2d 3 16 3 0, .relu, .maxPool2d 2,
   .conv2d 16 32 3 0, .relu, .maxPool2d 2,
   .conv2d 32 64 3 0, .relu, .maxPool2d 2]

/-- `Net_Seq.dense`: dropout, `Linear(64*26*26, 128)`, ReLU, dropout,
`Linear(128, 10)`. -/
def netSeqDense : List Layer :=
  [.dropout, .linear (64 * 26 * 26) 128, .relu, .dropout, .linear 128 10]

/-- `x.view(-1, d)`: reshapes to two dimensions with last dimension `d`,
inferring the first; fails (as PyTorch does) unless `d` divides the number of
elements. -/
def viewFlatten (d : Nat) (s : List Nat) : Option (List Nat) :=
  if 0 < d ∧ d ∣ s.prod then some [s.prod / d, d] else none

/-- `Net_Seq.forward`: convs, `view(-1, 64*26*26)`, dense. -/
def netSeqForward (s : List Nat) : Option (List Nat) :=
  match applySeq netSeqConvs s with
  | none => none
  | some a =>
    match viewFlatten (64 * 26 * 26) a with
    | none => none
    | some b => applySeq netSeqDense b

/-- Modelled from torchvision (external collaborator): the shape behaviour of
`torchvision.models.vgg16(pretrained=True).features`, the convolutional block
`TransferNet` reuses — thirteen 3x3 convolutions with padding 1 and five 2x2
max-poolings (configuration D). -/
def vgg16Features : List Layer :=
  [.conv2d 3 64 3 1, .relu, .conv2d 64 64 3 1, .relu, .maxPool2d 2,
   .conv2d 64 128 3 1, .relu, .conv2d 128 128 3 1, .relu, .maxPool2d 2,
   .conv2d 128 256 3 1, .relu, .conv2d 256 256 3 1, .relu, .conv2d 256 256 3 1, .relu,
   .maxPool2d 2,
   .conv2d 256 512 3 1, .relu, .conv2d 512 512 3 1, .relu, .conv2d 512 512 3 1, .relu,
   .maxPool2d 2,
   .conv2d 512 512 3 1, .relu, .conv2d 512 512 3 1, .relu, .conv2d 512 512 3 1, .relu,
   .maxPool2d 2]

/-- `TransferNet.dense`: three dropout+linear stages ending in
`Linear(256, 10)`. -/
def transferDense : List Layer :=
  [.dropout, .linear (512 * 7 * 7) 4000, .relu,
   .dropout, .linear 4000 256, .relu,
   .dropout, .linear 256 10]

/-- `TransferNet.forward`: pretrained features, `view(-1, 512*7*7)`, dense. -/
def transferNetForward (s : List Nat) : Option (List Nat) :=
  match applySeq vgg16Features s with
  | none => none
  | some a =>
    match viewFlatten (512 * 7 * 7) a with
    | none => none
    | some b => applySeq transferDense b

/-- C5: for every batch size `B ≥ 1` and a 224x224 RGB input batch, the
forward pass of both variants returns the shape `(B, 10)` — `B` rows of
unnormalized class scores, the last operation of both being a linear
projection (no normalization). -/
theorem c5_forward_shape (B : Nat) (_hB : 1 ≤ B) :
    netSeqForward [B, 3, 224, 224] = some [B, 10]
    ∧ transferNetForward [B, 3, 224, 224] = some [B, 10]
    ∧ netSeqDense.getLast? = some (Layer.linear 128 10)
    ∧ transferDense.getLast? = some (Layer.linear 256 10) := by
  have hseq : applySeq netSeqConvs [B, 3, 224, 224] = some [B, 64, 26, 26] := rfl
  have hvgg : applySeq vgg16Features [B, 3, 224, 224] = some [B, 512, 7, 7] := rfl
  have hp1 : ([B, 64, 26, 26] : List Nat).prod = B * 43264 := by
    simp [List.prod_cons]
  have hp2 : ([B, 512, 7, 7] : List Nat).prod = B * 25088 := by
    simp [List.prod_cons]
  have hv1 : viewFlatten (64 * 26 * 26) [B, 64, 26, 26] = some [B, 43264] := by
    rw [viewFlatten, if_pos ⟨by norm_num, by rw [hp1]; norm_num [dvd_mul_left]⟩, hp1]
    norm_num
  have hv2 : viewFlatten (512 * 7 * 7) [B, 512, 7, 7] = some [B, 25088] := by
    rw [viewFlatten, if_pos ⟨by norm_num, by rw [hp2]; norm_num [dvd_mul_left]⟩, hp2]
    norm_num
  refine ⟨?_, ?_, rfl, rfl⟩
  · show (match viewFlatten (64 * 26 * 26) [B, 64, 26, 26] with
          | none => none
          | some b => applySeq netSeqDense b) = some [B, 10]
    rw [hv1]
    rfl
  · show (match viewFlatten (512 * 7 * 7) [B, 512, 7, 7] with
          | none => none
          | some b => applySeq transferDense b) = some [B, 10]
    rw [hv2]
    rfl

/-- C5 (witness): the shape theorem evaluated at batch size 4, the
notebook's batch size. -/
theorem c5_forward_shape_witness :
    1 ≤ 4
    ∧ (netSeqForward [4, 3, 224, 224] = some [4, 10]
    ∧ transferNetForward [4, 3, 224, 224] = some [4, 10]
    ∧ netSeqDense.getLast? = some (Layer.linear 128 10)
    ∧ transferDense.getLast? = some (Layer.linear 256 10)) :=
  ⟨by decide, c5_forward_shape 4 (by decide)⟩

/-- The character of a decimal digit. -/
def digitChar (d : Nat) : Char := Char.ofNat (48 + d)

/-- Decimal rendering of a natural number, most significant digit first. -/
def natToChars (n : Nat) : List Char :=
  if _h : n < 10 then [digitChar n]
  else natToChars (n / 10) ++ [digitChar (n % 10)]
termination_by n
decreasing_by exact Nat.div_lt_self (by omega) (by norm_num)

/-- Decimal rendering of an integer. -/
def intToChars (n : Int) : List Char :=
  if n < 0 then '-' :: natToChars n.natAbs else natToChars n.natAbs

/-- Pads a rendering on the left to width `w` with character `c`, as Python's
width specifiers do. -/
def leftPad (c : Char) (w : Nat) (l : List Char) : List Char :=
  List.replicate (w - l.length) c ++ l

/-- Python's `%d` / `%3d` / `%5d`: decimal, space-padded to the width. -/
def fmtD (w : Nat) (n : Int) : List Char := leftPad ' ' w (intToChars n)

/-- Python's `%.3f` / `{:.3f}` on the rational model of a float: fixed point
with exactly three digits after the point, rounding to nearest (half up; the
float version rounds the nearest double half to even, which agrees except
exactly on representable ties, not exercised here). -/
def fmtF3 (q : ℚ) : List Char :=
  (if q < 0 then ['-'] else []) ++
    (natToChars ((Int.floor (|q| * 1000 + 1/2)).toNat / 1000) ++
      '.' :: leftPad '0' 3 (natToChars ((Int.floor (|q| * 1000 + 1/2)).toNat % 1000)))

/-- Python's `{:.0f}`: rounding to an integer, no decimal point. -/
def fmtF0 (q : ℚ) : List Char :=
  (if q < 0 then ['-'] else []) ++ natToChars (Int.floor (|q| + 1/2)).toNat

/-- An argument of a Python format operation. -/
inductive PyVal
  | i (n : Int)
  | f (q : ℚ)

/-- Interpreter for the `%`-style format strings the notebook uses: handles
the conversions `%d`, `%3d`, `%5d` and `%.3f`, and copies every other
character; arguments are consumed left to right. -/
def pyPercentFormat : List Char → List PyVal → List Char
  | [], _ => []
  | '%' :: 'd' :: rest, PyVal.i n :: args => fmtD 0 n ++ pyPercentFormat rest args
  | '%' :: '3' :: 'd' :: rest, PyVal.i n :: args => fmtD 3 n ++ pyPercentFormat rest args
  | '%' :: '5' :: 'd' :: rest, PyVal.i n :: args => fmtD 5 n ++ pyPercentFormat rest args
  | '%' :: '.' :: '3' :: 'f' :: rest, PyVal.f q :: args => fmtF3 q ++ pyPercentFormat rest args
  | c :: rest, args => c :: pyPercentFormat rest args

/-- Interpreter for the `str.format` replacement fields the notebook uses
(`\x7b:.3f\x7d` and `\x7b:.0f\x7d`); every other character is copied. -/
def pyBraceFormat : List Char → List PyVal → List Char
  | [], _ => []
  | '\x7b' :: ':' :: '.' :: '3' :: 'f' :: '\x7d' :: rest, PyVal.f q :: args =>
    fmtF3 q ++ pyBraceFormat rest args
  | '\x7b' :: ':' :: '.' :: '0' :: 'f' :: '\x7d' :: rest, PyVal.f q :: args =>
    fmtF0 q ++ pyBraceFormat rest args
  | c :: rest, args => c :: pyBraceFormat rest args

/-- The training progress line of `train`:

```
print('| epoch: %d | %3d*%5d images | loss = %.3f' %
      (epoch + 1, batch_size , i + 1, loss_sum / 200))
```
-/
def trainStatLine (epoch batchSize i : Nat) (lossSum : ℚ) : List Char :=
  pyPercentFormat ("| epoch: %d | %3d*%5d images | loss = %.3f").toList
    [PyVal.i ((epoch : Int) + 1), PyVal.i (batchSize : Int), PyVal.i ((i : Int) + 1),
      PyVal.f (lossSum / 200)]

/-- The epoch-end line of `train`:

```
print('\n | Test loss = \x7b:.3f\x7d | Test accuracy = \x7b:.0f\x7d% \n'.format(
    val_loss, 100. * correct / len(testloader.dataset)))
```
-/
def testStatLine (valLoss accPct : ℚ) : List Char :=
  pyBraceFormat ("\n | Test loss = \x7b:.3f\x7d | Test accuracy = \x7b:.0f\x7d% \n").toList
    [PyVal.f valLoss, PyVal.f accPct]

/-- The last element of an append whose right part has a last element. -/
theorem getLast?_append_some {α : Type} (l : List α) {m : List α} {c : α}
    (h : m.getLast? = some c) : (l ++ m).getLast? = some c := by
  rw [List.getLast?_append, h]
  rfl

/-- The last character of a decimal rendering is the last digit. -/
theorem natToChars_getLast (n : Nat) : (natToChars n).getLast? = some (digitChar (n % 10)) := by
  rw [natToChars]
  split
  · next h => rw [Nat.mod_eq_of_lt h]; rfl
  · exact List.getLast?_concat _

/-- Digit characters are not the bar character. -/
theorem digitChar_ne_bar (d : Nat) (hd : d < 10) : digitChar d ≠ '|' := by
  interval_cases d <;> decide

/-- A fixed-point rendering with three decimals ends in a digit. -/
theorem fmtF3_getLast (q : ℚ) :
    (fmtF3 q).getLast? =
      some (digitChar ((Int.floor (|q| * 1000 + 1/2)).toNat % 1000 % 10)) := by
  have h1 := natToChars_getLast ((Int.floor (|q| * 1000 + 1/2)).toNat % 1000)
  exact getLast?_append_some _ (getLast?_append_some _
    (getLast?_append_some ['.'] (getLast?_append_some _ h1)))

/-- The training progress line never ends in a bar: its last characters are
the three decimals of the loss. -/
theorem trainStatLine_ne_bar (epoch batchSize i : Nat) (lossSum : ℚ) :
    (trainStatLine epoch batchSize i lossSum).getLast? ≠ some '|' := by
  have heq : trainStatLine epoch batchSize i lossSum
      = ("| epoch: ").toList ++ (fmtD 0 ((epoch : Int) + 1) ++ ((" | ").toList
          ++ (fmtD 3 (batchSize : Int) ++ ('*' :: (fmtD 5 ((i : Int) + 1)
          ++ ((" images | loss = ").toList ++ (fmtF3 (lossSum / 200) ++ []))))))) := rfl
  have hlast : (trainStatLine epoch batchSize i lossSum).getLast?
      = some (digitChar ((Int.floor (|lossSum / 200| * 1000 + 1/2)).toNat % 1000 % 10)) := by
    rw [heq, List.append_nil]
    exact getLast?_append_some _ (getLast?_append_some _ (getLast?_append_some _
      (getLast?_append_some _ (getLast?_append_some ['*'] (getLast?_append_some _
        (getLast?_append_some _ (fmtF3_getLast (lossSum / 200))))))))
  intro hbar
  have hdig := Option.some.inj (hlast.symm.trans hbar)
  exact digitChar_ne_bar _ (Nat.mod_lt _ (by norm_num)) hdig

/-- The epoch-end line always ends in the trailing newline of its format
string. -/
theorem testStatLine_getLast (valLoss accPct : ℚ) :
    (testStatLine valLoss accPct).getLast? = some '\n' := by
  have heq : testStatLine valLoss accPct
      = ("\n | Test loss = ").toList ++ (fmtF3 valLoss ++ ((" | Test accuracy = ").toList
          ++ (fmtF0 accPct ++ ("% \n").toList))) := rfl
  rw [heq]
  exact getLast?_append_some _ (getLast?_append_some _ (getLast?_append_some _
    (getLast?_append_some _ rfl)))

/-- The training-line shape asserted by the claim: literally
`| epoch: <n> | <batch_size>*<batch_index> images | loss = <float> |`, with
some renderings `n`, `b`, `i`, `f` filling the placeholders and a final
bar. -/
def specTrainLineForm (l : List Char) : Prop :=
  ∃ n b i f : List Char,
    l = ("| epoch: ").toList ++ (n ++ ((" | ").toList ++ (b ++ ('*' :: (i
          ++ ((" images | loss = ").toList ++ (f ++ (" |").toList)))))))

/-- C4 (counterexample): the progress line printed for epoch 0, batch size 4,
batch index 199 and window sum 100 does not have the claimed form — the
format string has no trailing `|`, so the line ends in a digit of the loss,
not in a bar. -/
theorem c4_line_format_counterexample : ¬ specTrainLineForm (trainStatLine 0 4 199 100) := by
  rintro ⟨n, b, i, f, h⟩
  have hend : ((" |").toList : List Char).getLast? = some '|' := rfl
  have hbar : (trainStatLine 0 4 199 100).getLast? = some '|' := by
    rw [h]
    exact getLast?_append_some _ (getLast?_append_some _ (getLast?_append_some _
      (getLast?_append_some _ (getLast?_append_some ['*'] (getLast?_append_some _
        (getLast?_append_some _ (getLast?_append_some _ hend)))))))
  exact absurd hbar (trainStatLine_ne_bar 0 4 199 100)

/-- C4 (amended): every training progress line has exactly the form
`| epoch: <n> | <batch_size, width 3>*<batch_count, width 5> images |
loss = <float, 3 decimals>` with no trailing bar, and every epoch-end line
has exactly the form `\n | Test loss = <float, 3 decimals> | Test accuracy =
<float, 0 decimals>% \n` — leading newline-space, trailing space-newline,
and again no trailing bar. -/
theorem c4_line_format_amended (epoch batchSize i : Nat) (lossSum valLoss accPct : ℚ) :
    (trainStatLine epoch batchSize i lossSum
      = ("| epoch: ").toList ++ (fmtD 0 ((epoch : Int) + 1) ++ ((" | ").toList
          ++ (fmtD 3 (batchSize : Int) ++ ('*' :: (fmtD 5 ((i : Int) + 1)
          ++ ((" images | loss = ").toList ++ fmtF3 (lossSum / 200))))))))
    ∧ (testStatLine valLoss accPct
      = ("\n | Test loss = ").toList ++ (fmtF3 valLoss ++ ((" | Test accuracy = ").toList
          ++ (fmtF0 accPct ++ ("% \n").toList))))
    ∧ (trainStatLine epoch batchSize i lossSum).getLast? ≠ some '|'
    ∧ (testStatLine valLoss accPct).getLast? ≠ some '|' := by
  refine ⟨?_, rfl, trainStatLine_ne_bar epoch batchSize i lossSum, ?_⟩
  · have heq : trainStatLine epoch batchSize i lossSum
        = ("| epoch: ").toList ++ (fmtD 0 ((epoch : Int) + 1) ++ ((" | ").toList
            ++ (fmtD 3 (batchSize : Int) ++ ('*' :: (fmtD 5 ((i : Int) + 1)
            ++ ((" images | loss = ").toList ++ (fmtF3 (lossSum / 200) ++ []))))))) := rfl
    rw [heq, List.append_nil]
  · rw [testStatLine_getLast valLoss accPct]
    simp
